import Mathlib

/-!
Verification development for the flashcards application
(`DeckManager` / `UIManager` / `AccessibleModal` in `app.js`,
`StorageManager` / `SearchManager` in the storage module, and the
standalone `AccessibleModal` ES module).

The JavaScript is embedded shallowly:

* `DeckM` models `DeckManager` with value semantics (states are records,
  operations are pure functions returning the next state, a thrown
  exception is `Option.none`).
* `DeckHeap` models the reference semantics needed to reason about
  `getAllDecks`' shallow copy: arrays and deck objects live on an
  explicit heap of numbered addresses.
* `Study` models the study-mode navigation state machine of `UIManager`
  (`studyModeNext` / `studyModePrevious`).
* `SearchM` models `SearchManager.search` / `filterCards` (the value the
  debounced callback eventually receives; timer scheduling is not
  modelled).
* `StorageM` models `StorageManager.loadState` over a JSON value type.
* `Modal` models the two `AccessibleModal` implementations: `open` as an
  ordered trace of its side-effecting statements, and the Tab handling
  (`trapFocus`) as functions from the focusable-element lists to the
  keyboard outcome.
-/

/-! ## `DeckM`: value-semantics model of `DeckManager` (app.js lines 9-205) -/

namespace DeckM

/-- A card object as built by `DeckManager.addCardToDeck`. -/
structure Card where
  id : String
  front : String
  back : String
  createdAt : String
deriving Repr, DecidableEq, Inhabited

/-- A deck object: `{ id, name, cards, createdAt }`. -/
structure Deck where
  id : Int
  name : String
  cards : List Card
  createdAt : String
deriving Repr, DecidableEq, Inhabited

/-- The mutable fields of `DeckManager` relevant to decks and selection. -/
structure State where
  decks : List Deck
  nextId : Int
  selectedDeckId : Option Int
deriving Repr, DecidableEq

/-- `DeckManager.createDeck(name)` (app.js 62-77).  `none` models the thrown
`Error("Deck name cannot be empty")`; on success the new deck gets id
`nextId` and `nextId` is incremented.  `now` stands for `new Date()`. -/
def createDeck (st : State) (name now : String) : Option (Deck × State) :=
  if name = "" ∨ name.trim = "" then none
  else
    let newDeck : Deck := { id := st.nextId, name := name.trim, cards := [], createdAt := now }
    some (newDeck,
      { st with decks := st.decks ++ [newDeck], nextId := st.nextId + 1 })

/-- `decks.findIndex(d => d.id === id)` followed by `decks.splice(index, 1)`:
remove the first deck with the given id, returning it and the remaining
list; `none` when no deck matches. -/
def removeById : List Deck → Int → Option (Deck × List Deck)
  | [], _ => none
  | d :: ds, i =>
    if d.id = i then some (d, ds)
    else
      match removeById ds i with
      | none => none
      | some (x, rest) => some (x, d :: rest)

/-- Result of a successful `deleteDeck`: the published event (kind and
payload) together with the registry state visible to subscribers at the
moment `notifyObservers("deckDeleted", ...)` runs, and the state after
the operation returns.  In the source the splice and the selection clear
both happen before the notification, so `stateAtPublish = final`. -/
structure DeleteOut where
  event : String × Deck
  stateAtPublish : State
  final : State
deriving Repr, DecidableEq

/-- `DeckManager.deleteDeck(id)` (app.js 102-118). -/
def deleteDeck (st : State) (i : Int) : Option DeleteOut :=
  match removeById st.decks i with
  | none => none
  | some (deletedDeck, decks') =>
    let sel' := if st.selectedDeckId = some i then none else st.selectedDeckId
    let st' : State := { st with decks := decks', selectedDeckId := sel' }
    some { event := ("deckDeleted", deletedDeck), stateAtPublish := st', final := st' }

/-- `DeckManager.getDeckById(id)` (app.js 55-57). -/
def getDeckById (st : State) (i : Int) : Option Deck :=
  st.decks.find? (fun d => d.id == i)

/-- `DeckManager.selectDeck(id)` (app.js 123-132); `none` models the throw. -/
def selectDeck (st : State) (i : Int) : Option (Deck × State) :=
  match getDeckById st i with
  | none => none
  | some d => some (d, { st with selectedDeckId := some i })

/-- Registry operations exercised over a lifetime (the ones that touch the
deck collection or the id counter). -/
inductive Op where
  | create (name now : String)
  | delete (i : Int)
  | select (i : Int)

/-- One operation applied to a state; the second component lists the id of
the deck created by this operation (empty when nothing was created or the
operation threw). -/
def step (st : State) : Op → State × List Int
  | .create name now =>
    match createDeck st name now with
    | none => (st, [])
    | some (d, st') => (st', [d.id])
  | .delete i =>
    match deleteDeck st i with
    | none => (st, [])
    | some r => (r.final, [])
  | .select i =>
    match selectDeck st i with
    | none => (st, [])
    | some (_, st') => (st', [])

/-- Run a list of operations, collecting the ids handed out by
`createDeck` in order. -/
def run (st : State) : List Op → State × List Int
  | [] => (st, [])
  | op :: ops =>
    let p := step st op
    let q := run p.1 ops
    (q.1, p.2 ++ q.2)

/-- The `nextId` seed computed by `UIManager.loadPersistedState`
(app.js 1009-1014) from the ids of the decks in the loaded snapshot:
`deckIds = decks.map(d => d.id).filter(Number.isInteger)` and then
`deckIds.length > 0 ? Math.max(...deckIds) + 1 : 1`.  A snapshot deck id
is modelled as `some n` when it is an integer and `none` when it is
missing or not an integer (filtered out by `Number.isInteger`). -/
def computeNextId (snapIds : List (Option Int)) : Int :=
  let deckIds := snapIds.filterMap (fun x => x)
  match deckIds with
  | [] => 1
  | v :: vs => vs.foldl max v + 1

end DeckM

/-! ## `DeckHeap`: reference-semantics model for `getAllDecks`
(app.js 48-50).  Arrays and deck objects are heap cells addressed by
naturals; `[...this.decks]` allocates a fresh array cell holding the same
deck references. -/

namespace DeckHeap

abbrev Addr := Nat

/-- A card object (fields only; aliasing of cards is not needed here). -/
structure CardObj where
  id : String
  front : String
  back : String
deriving Repr, DecidableEq

/-- A deck object's own fields; its `cards` list is kept by value since
only deck-level sharing matters for the claim. -/
structure DeckObj where
  id : Int
  name : String
  cards : List CardObj
deriving Repr, DecidableEq

/-- The heap: array cells map an address to a list of deck-object
addresses, object cells map an address to a deck object.  `registryArr`
is the address of the `this.decks` array inside `DeckManager`;
`nextAddr` is the allocator cursor. -/
structure World where
  arrays : List (Addr × List Addr)
  objs : List (Addr × DeckObj)
  registryArr : Addr
  nextAddr : Addr
deriving Repr, DecidableEq

/-- Contents of the array cell at `a` (empty when unallocated). -/
def lookupArr (w : World) (a : Addr) : List Addr :=
  ((w.arrays.find? (fun p => p.1 == a)).map (fun p => p.2)).getD []

/-- The deck object stored at `a`, if any. -/
def lookupObj (w : World) (a : Addr) : Option DeckObj :=
  (w.objs.find? (fun p => p.1 == a)).map (fun p => p.2)

/-- `DeckManager.getAllDecks()` = `return [...this.decks]`: allocate a new
array cell containing the same element references as the registry's
array, and hand its address to the caller. -/
def getAllDecks (w : World) : Addr × World :=
  (w.nextAddr,
   { w with
     arrays := w.arrays ++ [(w.nextAddr, lookupArr w w.registryArr)],
     nextAddr := w.nextAddr + 1 })

/-- The deck objects currently reachable through the registry's own
array — the internal state observed by rendering and by `getAllDecks`. -/
def internalDecks (w : World) : List DeckObj :=
  (lookupArr w w.registryArr).filterMap (lookupObj w)

/-- `DeckManager.getDeckById(id)` = `this.decks.find(d => d.id === id)`. -/
def getDeckById (w : World) (i : Int) : Option DeckObj :=
  (internalDecks w).find? (fun d => d.id == i)

/-- A caller-side mutation of the array cell at `a` (push / splice /
reorder / clear — any replacement of its contents). -/
def writeArr (w : World) (a : Addr) (l : List Addr) : World :=
  { w with arrays := w.arrays.map (fun p => if p.1 == a then (p.1, l) else p) }

/-- A caller-side mutation of a deck object reached by reference:
`deck.name = nm`. -/
def writeDeckName (w : World) (a : Addr) (nm : String) : World :=
  { w with objs := w.objs.map (fun p => if p.1 == a then (p.1, { p.2 with name := nm }) else p) }

/-- Allocator sanity: every allocated array cell, including the
registry's, sits below the allocation cursor. -/
def wf (w : World) : Prop :=
  (∀ p ∈ w.arrays, p.1 < w.nextAddr) ∧ w.registryArr < w.nextAddr

instance (w : World) : Decidable (wf w) := by
  unfold wf; infer_instance

/-- A concrete world: the registry array at address 0 holds one deck
object (address 1), the "Spanish" deck with a single card. -/
def w0 : World :=
  { arrays := [(0, [1])]
  , objs := [(1, { id := 1, name := "Spanish", cards := [{ id := "c1", front := "hola", back := "hello" }] })]
  , registryArr := 0
  , nextAddr := 2 }

end DeckHeap

/-! ## `Study`: study-mode navigation (app.js 690-947) -/

namespace Study

/-- The `this.studyMode` object created by `enterStudyMode`
(app.js 703-709); `startTime` and `cardsStudied` mirror the source
fields (`visitedCardIds` in the spec's terms). -/
structure StudyMode where
  active : Bool
  deckId : Int
  currentIndex : Int
  startTime : Int
  cardsStudied : List String
deriving Repr, DecidableEq

/-- The slice of `UIManager` state that study navigation touches:
`this.studyMode` (absent before the first entry) and
`this.cardFlipState` (a `Map` from card id to flip flag, modelled as an
association list). -/
structure UIState where
  studyMode : Option StudyMode
  cardFlipState : List (String × Bool)
deriving Repr, DecidableEq

/-- `this.cardFlipState.has(cardId)`. -/
def hasFlip (m : List (String × Bool)) (k : String) : Bool :=
  m.any (fun p => p.1 == k)

/-- `this.cardFlipState.delete(cardId)`. -/
def eraseFlip (m : List (String × Bool)) (k : String) : List (String × Bool) :=
  m.filter (fun p => p.1 != k)

/-- `this.studyMode.cardsStudied.add(cardId)` (a `Set`). -/
def addStudied (s : List String) (k : String) : List String :=
  if s.contains k then s else s ++ [k]

/-- The defensive bounds check shared by `studyModePrevious` and
`studyModeNext` (app.js 890-895 and 925-930): an index outside
`[0, deckLength)` is reset to 0 before the move. -/
def normIdx (i n : Int) : Int :=
  if i < 0 ∨ n ≤ i then 0 else i

/-- `(currentIndex + 1) % deckLength` after normalization (app.js
933-934).  The dividend is nonnegative and the divisor positive, so the
JavaScript remainder agrees with `Int.emod`. -/
def nextIdx (i n : Int) : Int :=
  (normIdx i n + 1) % n

/-- `(currentIndex - 1 + deckLength) % deckLength` after normalization
(app.js 898-899). -/
def prevIdx (i n : Int) : Int :=
  (normIdx i n - 1 + n) % n

/-- `UIManager.studyModeNext()` (app.js 917-947): guarded by the active
flag, by deck existence and by non-emptiness; normalizes the index,
advances with wrap-around, clears the flip state of the card now shown,
and (inside `renderStudyModeCard`, app.js 792) marks that card as
studied. -/
def studyModeNext (dm : DeckM.State) (ui : UIState) : UIState :=
  match ui.studyMode with
  | none => ui
  | some sm =>
    if sm.active = false then ui
    else
      match DeckM.getDeckById dm sm.deckId with
      | none => ui
      | some deck =>
        if deck.cards.length = 0 then ui
        else
          let deckLength : Int := deck.cards.length
          let i1 := nextIdx sm.currentIndex deckLength
          let currentCard := deck.cards.getD i1.toNat default
          let flip' :=
            if hasFlip ui.cardFlipState currentCard.id
            then eraseFlip ui.cardFlipState currentCard.id
            else ui.cardFlipState
          { studyMode := some { sm with
              currentIndex := i1
              cardsStudied := addStudied sm.cardsStudied currentCard.id }
            cardFlipState := flip' }

/-- `UIManager.studyModePrevious()` (app.js 882-912). -/
def studyModePrevious (dm : DeckM.State) (ui : UIState) : UIState :=
  match ui.studyMode with
  | none => ui
  | some sm =>
    if sm.active = false then ui
    else
      match DeckM.getDeckById dm sm.deckId with
      | none => ui
      | some deck =>
        if deck.cards.length = 0 then ui
        else
          let deckLength : Int := deck.cards.length
          let i1 := prevIdx sm.currentIndex deckLength
          let currentCard := deck.cards.getD i1.toNat default
          let flip' :=
            if hasFlip ui.cardFlipState currentCard.id
            then eraseFlip ui.cardFlipState currentCard.id
            else ui.cardFlipState
          { studyMode := some { sm with
              currentIndex := i1
              cardsStudied := addStudied sm.cardsStudied currentCard.id }
            cardFlipState := flip' }

/-- The currently tracked study index, when a session object exists. -/
def currentIndexOf (ui : UIState) : Option Int :=
  ui.studyMode.map (fun sm => sm.currentIndex)

/-- A concrete three-card deck, for running the navigation on. -/
def sampleDeck : DeckM.Deck :=
  { id := 5, name := "D"
  , cards := [⟨"a", "fa", "ba", "t"⟩, ⟨"b", "fb", "bb", "t"⟩, ⟨"c", "fc", "bc", "t"⟩]
  , createdAt := "t" }

/-- A registry holding `sampleDeck`. -/
def sampleDm : DeckM.State :=
  { decks := [sampleDeck], nextId := 6, selectedDeckId := some 5 }

/-- An active session over `sampleDeck` at index 1. -/
def sampleSm : StudyMode :=
  { active := true, deckId := 5, currentIndex := 1, startTime := 0, cardsStudied := [] }

/-- The UI state holding `sampleSm` with no flipped cards. -/
def sampleUi : UIState :=
  { studyMode := some sampleSm, cardFlipState := [] }

end Study

/-! ## `SearchM`: `SearchManager` (storage module lines 273-357).
Only the value eventually delivered to the callback is modelled; the
debounce timer itself is scheduling, not data. -/

namespace SearchM

/-- A card as seen by the search: its `front` and `back` text. -/
structure Card where
  front : String
  back : String
deriving Repr, DecidableEq

/-- `hasInfix nd hs` holds when `nd` occurs contiguously inside `hs`. -/
def hasInfix (nd : List Char) : List Char → Bool
  | [] => nd.isEmpty
  | c :: t => nd.isPrefixOf (c :: t) || hasInfix nd t

/-- JavaScript `haystack.includes(needle)` on strings. -/
def strIncludes (haystack needle : String) : Bool :=
  hasInfix needle.data haystack.data

/-- JavaScript `String.prototype.trim`: strip leading and trailing
whitespace. -/
def jsTrim (s : String) : String :=
  ⟨((s.data.dropWhile Char.isWhitespace).reverse.dropWhile
      Char.isWhitespace).reverse⟩

/-- JavaScript `String.prototype.toLowerCase`. -/
def jsToLower (s : String) : String :=
  ⟨s.data.map Char.toLower⟩

/-- `SearchManager.filterCards(cards, query)` (lines 315-324):
`normalizedQuery = query.toLowerCase().trim()`, keep the cards whose
lowercased `front` or `back` contains it.  (`card.front || ""` is the
identity on strings, since the only falsy string is `""`.) -/
def filterCards (cards : List Card) (query : String) : List Card :=
  let normalizedQuery := jsTrim (jsToLower query)
  cards.filter (fun card =>
    strIncludes (jsToLower card.front) normalizedQuery ||
    strIncludes (jsToLower card.back) normalizedQuery)

/-- `SearchManager.search(cards, query, callback)` (lines 287-306): the
pair `(filteredCards, matchCount)` passed to the callback once the
debounce window settles.  Empty or all-blank query
(`!query || query.trim() === ""`) short-circuits to the full list. -/
def searchOutcome (cards : List Card) (query : String) : List Card × Nat :=
  if query = "" ∨ jsTrim query = "" then (cards, cards.length)
  else
    let f := filterCards cards query
    (f, f.length)

/-- The matching predicate exactly as the claim words it: the case-folded
query (not trimmed) is a substring of the case-folded front or back. -/
def claimMatchFolded (query : String) (card : Card) : Bool :=
  strIncludes (jsToLower card.front) (jsToLower query) ||
  strIncludes (jsToLower card.back) (jsToLower query)

/-- The claim's description of `search`, for comparison with the code:
blank query yields the input with its length, otherwise the subsequence
matching `claimMatchFolded`. -/
def claimSearchFolded (cards : List Card) (query : String) : List Card × Nat :=
  if query = "" ∨ jsTrim query = "" then (cards, cards.length)
  else
    let f := cards.filter (claimMatchFolded query)
    (f, f.length)

/-- The amended description: the query is case-folded *and trimmed*
before the substring test, as the code does. -/
def claimMatchTrimmedFolded (query : String) (card : Card) : Bool :=
  strIncludes (jsToLower card.front) (jsTrim (jsToLower query)) ||
  strIncludes (jsToLower card.back) (jsTrim (jsToLower query))

/-- The amended description of `search`. -/
def claimSearchTrimmedFolded (cards : List Card) (query : String) : List Card × Nat :=
  if query = "" ∨ jsTrim query = "" then (cards, cards.length)
  else
    let f := cards.filter (claimMatchTrimmedFolded query)
    (f, f.length)

end SearchM

/-! ## `StorageM`: `StorageManager.loadState` (storage module lines 29-77)
with its validation (186-193), migration (200-235) and default state
(156-164).  JSON values are modelled by `JsVal`; JSON has no `NaN` or
infinities, so numbers are rationals. -/

namespace StorageM

/-- A JSON value as produced by `JSON.parse`. -/
inductive JsVal where
  | null
  | bool (b : Bool)
  | num (q : Rat)
  | str (s : String)
  | arr (elems : List JsVal)
  | obj (fields : List (String × JsVal))

/-- Property read `v[k]`; `none` models `undefined` (also for reads on
non-objects, which is what matters for the fields inspected here). -/
def getField (v : JsVal) (k : String) : Option JsVal :=
  match v with
  | .obj fields => (fields.find? (fun p => p.1 == k)).map (fun p => p.2)
  | _ => none

/-- Property write `v[k] = x` (update in place, or append a new key). -/
def setField (v : JsVal) (k : String) (x : JsVal) : JsVal :=
  match v with
  | .obj fields =>
    if fields.any (fun p => p.1 == k)
    then .obj (fields.map (fun p => if p.1 == k then (p.1, x) else p))
    else .obj (fields ++ [(k, x)])
  | other => other

/-- JavaScript truthiness of a JSON value. -/
def jsTruthy : JsVal → Bool
  | .null => false
  | .bool b => b
  | .num q => q != 0
  | .str s => !s.isEmpty
  | .arr _ => true
  | .obj _ => true

/-- `a || d` where `a` is a property read (`none` = `undefined`, falsy). -/
def jsOr (v : Option JsVal) (d : JsVal) : JsVal :=
  match v with
  | some x => if jsTruthy x then x else d
  | none => d

/-- `data && typeof data === "object"`: a non-null object (JSON arrays
are also `typeof "object"`). -/
def isObjLike : JsVal → Bool
  | .obj _ => true
  | .arr _ => true
  | _ => false

/-- `Array.isArray(data.decks)`. -/
def decksIsArray (data : JsVal) : Bool :=
  match getField data "decks" with
  | some (.arr _) => true
  | _ => false

/-- `data.selectedDeckId === null || typeof data.selectedDeckId === "number"`
(a missing property is `undefined`, which is neither). -/
def selectedOk (data : JsVal) : Bool :=
  match getField data "selectedDeckId" with
  | some .null => true
  | some (.num _) => true
  | _ => false

/-- `StorageManager.isValidStateStructure(data)` (lines 186-193).
A JSON array is `typeof "object"`, but reading `decks` on it gives
`undefined`, so only genuine objects can pass. -/
def isValidStateStructure (data : JsVal) : Bool :=
  isObjLike data && decksIsArray data && selectedOk data

/-- Digit list to number, most significant first. -/
def digitsToNat (cs : List Char) : Nat :=
  cs.foldl (fun a c => a * 10 + (c.toNat - 48)) 0

/-- `10^e` for a signed exponent. -/
def ratPow10 (e : Int) : Rat :=
  if 0 ≤ e then (10 : Rat) ^ e.toNat else ((10 : Rat) ^ (-e).toNat)⁻¹

/-- `intPart.fracPart` as a rational. -/
def mkDec (ip fp : List Char) : Rat :=
  (digitsToNat ip : Rat) + (digitsToNat fp : Rat) / ((10 : Rat) ^ fp.length)

/-- Exponent suffix after an `e`/`E`: optional sign then digits. -/
def parseExp (cs : List Char) : Option Int :=
  let p :=
    match cs with
    | '-' :: r => ((-1 : Int), r)
    | '+' :: r => ((1 : Int), r)
    | r => ((1 : Int), r)
  if p.2 ≠ [] ∧ p.2.all Char.isDigit
  then some (p.1 * (digitsToNat p.2 : Int))
  else none

/-- Unsigned decimal literal: `digits [. digits] [exp]` or `. digits [exp]`. -/
def parseUnsigned (cs : List Char) : Option Rat :=
  let ip := cs.takeWhile Char.isDigit
  let rest := cs.dropWhile Char.isDigit
  match rest with
  | [] => if ip = [] then none else some (digitsToNat ip : Rat)
  | '.' :: r2 =>
    let fp := r2.takeWhile Char.isDigit
    let rest2 := r2.dropWhile Char.isDigit
    if ip = [] ∧ fp = [] then none
    else
      match rest2 with
      | [] => some (mkDec ip fp)
      | e :: r3 =>
        if e = 'e' ∨ e = 'E'
        then (parseExp r3).map (fun ex => mkDec ip fp * ratPow10 ex)
        else none
  | e :: r3 =>
    if (e = 'e' ∨ e = 'E') ∧ ip ≠ []
    then (parseExp r3).map (fun ex => (digitsToNat ip : Rat) * ratPow10 ex)
    else none

/-- JavaScript `Number(string)` restricted to decimal notation; `none`
models `NaN`.  (Hex/binary/`Infinity` forms yield `NaN` here; those forms
can never denote the nonpositive integers the migration loop cares
about, so the loop behaviour below is unaffected.) -/
def jsStrToNumber (s : String) : Option Rat :=
  let t := s.trim
  if t = "" then some 0
  else
    match t.data with
    | '-' :: r => (parseUnsigned r).map (fun q => -q)
    | '+' :: r => parseUnsigned r
    | r => parseUnsigned r

/-- Decimal rendering of an integer-valued rational; a non-integer is
rendered with an explicit `/`, which (like JavaScript's decimal-point
rendering) can never turn into an integer literal by appending digits. -/
def jsNumToString (q : Rat) : String :=
  if q.den = 1 then toString q.num
  else toString q.num ++ "/" ++ toString q.den

mutual

/-- One array element as rendered by `Array.prototype.join` (`null` and
holes render empty, nested arrays join recursively, objects render as
`[object Object]`). -/
def joinElemToString : JsVal → String
  | .null => ""
  | .bool b => if b then "true" else "false"
  | .num q => jsNumToString q
  | .str s => s
  | .arr xs => joinArr xs
  | .obj _ => "[object Object]"

/-- `elems.join(",")`. -/
def joinArr : List JsVal → String
  | [] => ""
  | [x] => joinElemToString x
  | x :: y :: xs => joinElemToString x ++ "," ++ joinArr (y :: xs)

end

/-- Whether the string `s`, as the loop variable `v`'s initial value
`fromVersion + "1"` (string concatenation), leads the migration loop to
hit the key `1`: its numeric value must be an integer `t ≤ 0` (the loop
then counts `t + 1, t + 2, ...` up to `1`). -/
def strHits (s : String) : Bool :=
  match jsStrToNumber (s ++ "1") with
  | some t => t.den = 1 && decide (t ≤ 0)
  | none => false

/-- Closed form of the migration loop
`for (let v = fromVersion + 1; v <= this.version; v++)` with
`this.version = 1` and `migrationStrategies = {1: migrateToV1}`: whether
the loop variable ever equals the key `1`.  For a number `q` the loop
starts at `q + 1` and steps by `1`, so it hits `1` exactly when `q` is an
integer `≤ 0`; for a string (or an array, which coerces via `join`) the
first iteration concatenates `"1"` and later iterations step numerically;
booleans/objects coerce to `2`/`NaN` and never hit. -/
def migrationLoopHitsV1 : JsVal → Bool
  | .num q => q.den = 1 && decide (q ≤ 0)
  | .bool _ => false
  | .null => false
  | .str s => strHits s
  | .arr xs => strHits (joinArr xs)
  | .obj _ => false

/-- The deck normalization inside `migrateToV1` (lines 223-228):
`{id: deck.id, name: deck.name || "Untitled Deck",
cards: Array.isArray(deck.cards) ? deck.cards : [],
createdAt: deck.createdAt || now}`.  A missing `id` yields an
`undefined` property, which the later `JSON` round trip drops, so it is
omitted here. -/
def fixDeck (now : String) (deck : JsVal) : JsVal :=
  .obj
    ((match getField deck "id" with
      | some v => [("id", v)]
      | none => []) ++
     [("name", jsOr (getField deck "name") (.str "Untitled Deck")),
      ("cards",
        match getField deck "cards" with
        | some (.arr xs) => .arr xs
        | _ => .arr []),
      ("createdAt", jsOr (getField deck "createdAt") (.str now))])

/-- `StorageManager.migrateToV1(data)` (lines 221-235):
`{...data, decks: (data.decks || []).map(fixDeck), version: 1}`.
(`loadState` only reaches this after validation, so `decks` is an array;
any other shape is mapped to `[]` to keep the function total.) -/
def migrateToV1 (now : String) (data : JsVal) : JsVal :=
  let decksVal := jsOr (getField data "decks") (.arr [])
  let migratedDecks :=
    match decksVal with
    | .arr xs => JsVal.arr (xs.map (fixDeck now))
    | _ => JsVal.arr []
  setField (setField data "decks" migratedDecks) "version" (.num 1)

/-- `StorageManager.migrateState(data)` (lines 200-213): shallow-copy the
data, run the strategies the loop reaches (only `migrateToV1` exists),
then stamp `version = 1`. -/
def migrateState (now : String) (data : JsVal) : JsVal :=
  let fromVersion := jsOr (getField data "version") (.num 0)
  let migrated :=
    if migrationLoopHitsV1 fromVersion then migrateToV1 now data else data
  setField migrated "version" (.num 1)

/-- `StorageManager.getDefaultState()` (lines 156-164); `now` stands for
`new Date().toISOString()`. -/
def getDefaultState (now : String) : JsVal :=
  .obj
    [("version", .num 1),
     ("decks", .arr []),
     ("selectedDeckId", .null),
     ("searchQuery", .str ""),
     ("savedAt", .str now)]

/-- What the world outside `loadState` provides: whether `localStorage`
works, and what `getItem` + `JSON.parse` yield — `none`: no value under
the key; `some none`: a stored string that is not valid JSON (the parse
throws); `some (some v)`: a stored string parsing to `v`. -/
structure LoadEnv where
  available : Bool
  stored : Option (Option JsVal)

/-- `StorageManager.loadState()` (lines 29-77).  Every failure branch —
storage unavailable, nothing stored, unparseable JSON, invalid structure —
returns `getDefaultState()`; a valid snapshot with a version other than
`1` is migrated; the final `JSON.parse(JSON.stringify(...))` deep copy is
the identity on JSON values. -/
def loadState (env : LoadEnv) (now : String) : JsVal :=
  if !env.available then getDefaultState now
  else
    match env.stored with
    | none => getDefaultState now
    | some none => getDefaultState now
    | some (some parsedData) =>
      if !isValidStateStructure parsedData then getDefaultState now
      else
        match getField parsedData "version" with
        | some (.num q) =>
          if q = 1 then parsedData else migrateState now parsedData
        | _ => migrateState now parsedData

end StorageM

/-! ## `Observers`: the `DeckManager` pub/sub channel (app.js 186-204).
A callback is identified by a number (JavaScript function identity); its
behaviour when invoked is given by `beh` (`true` = the callback throws). -/

namespace Observers

/-- `DeckManager.subscribe(callback)` = `this.observers.push(callback)` —
a plain append, with no duplicate check. -/
def subscribe (obs : List Nat) (cb : Nat) : List Nat :=
  obs ++ [cb]

/-- `DeckManager.unsubscribe(callback)` =
`this.observers = this.observers.filter(o => o !== callback)` — removes
every occurrence of that function identity. -/
def unsubscribe (obs : List Nat) (cb : Nat) : List Nat :=
  obs.filter (fun o => o != cb)

/-- `DeckManager.notifyObservers(event, data)` =
`this.observers.forEach(cb => cb(event, data))` with no `try`/`catch`:
returns the callbacks actually invoked, in order, and whether an
exception escaped the dispatch (aborting `forEach` and propagating out
of the publishing operation).  A throwing callback is itself invoked but
stops everything after it. -/
def notifyRun : List Nat → (Nat → Bool) → List Nat × Bool
  | [], _ => ([], false)
  | c :: cs, beh =>
    if beh c then ([c], true)
    else
      let r := notifyRun cs beh
      (c :: r.1, r.2)

/-- Callback behaviour for the concrete dispatch below: callback `0`
throws, every other callback returns normally. -/
def behZeroThrows : Nat → Bool := fun n => n == 0

end Observers

/-! ## `Modal`: the two `AccessibleModal` implementations.
`app.js` embeds the revised class (lines 1162-1381); `part_002` is the
standalone ES-module version of the same class. -/

namespace Modal

/-- A focusable DOM element, by identity. -/
abbrev Elem := Nat

/-- The side-effecting statements of `AccessibleModal.open`, in source
terms: store `previouslyFocusedElement`, run `getFocusableElements()`,
`display = "block"`, `aria-hidden = "false"`, `focusTrapActive = true`,
`document.addEventListener("keydown", ...)`, `body.overflow = "hidden"`,
the initial `.focus()` call, and the screen-reader announcement. -/
inductive OpenStep where
  | storeRestoreTarget
  | computeFocusables
  | showModal
  | setAriaHidden
  | setActiveFlag
  | attachKeyListener
  | lockBodyScroll
  | moveInitialFocus
  | announce
deriving Repr, DecidableEq, BEq

/-- `AccessibleModal.open` in `app.js` (lines 1286-1319), as the ordered
trace of its statements. -/
def openStepsApp : List OpenStep :=
  [.storeRestoreTarget, .computeFocusables, .showModal, .setAriaHidden,
   .setActiveFlag, .attachKeyListener, .lockBodyScroll, .moveInitialFocus,
   .announce]

/-- `AccessibleModal.open` in the `part_002` module (lines 127-157), as
the ordered trace of its statements: the initial focus move (lines
142-146) happens before `addEventListener` (149) and before
`focusTrapActive = true` (150). -/
def openStepsModule : List OpenStep :=
  [.storeRestoreTarget, .computeFocusables, .showModal, .setAriaHidden,
   .moveInitialFocus, .attachKeyListener, .setActiveFlag, .lockBodyScroll,
   .announce]

/-- Position of a statement in a trace (the trace length when absent). -/
def stepIndex (s : OpenStep) : List OpenStep → Nat
  | [] => 0
  | x :: xs => if x == s then 0 else stepIndex s xs + 1

/-- What a keydown handler does with one Tab press: whether it called
`e.preventDefault()`, and the element it explicitly focused (if any). -/
structure KeyOutcome where
  prevented : Bool
  focusTarget : Option Elem
deriving Repr, DecidableEq

/-- `AccessibleModal.trapFocus(e)` in `app.js` (lines 1238-1267) for a
Tab press: it first overwrites `this.focusableElements` with a fresh
`getFocusableElements()` query (`domFocusables`), ignoring the cached
list (`cachedFocusables`); an empty fresh set cancels the default action
and does nothing else; otherwise Shift+Tab on the first element wraps to
the last, Tab on the last wraps to the first, and any other position is
left to the native default.  Returns the new cached list together with
the outcome. -/
def trapFocusApp (cachedFocusables domFocusables : List Elem)
    (activeEl : Elem) (shift : Bool) : List Elem × KeyOutcome :=
  let els := domFocusables
  match els with
  | [] => (els, { prevented := true, focusTarget := none })
  | x :: xs =>
    let firstElement := x
    let lastElement := (x :: xs).getLast (List.cons_ne_nil x xs)
    if shift then
      if activeEl = firstElement
      then (els, { prevented := true, focusTarget := some lastElement })
      else (els, { prevented := false, focusTarget := none })
    else
      if activeEl = lastElement
      then (els, { prevented := true, focusTarget := some firstElement })
      else (els, { prevented := false, focusTarget := none })

/-- The claim's description of Tab handling while the trap is active,
written from the spec's words: recompute the focusable set fresh; if it
is empty cancel the default action and leave focus alone; Tab on the
last element moves to the first, Shift+Tab on the first moves to the
last; anywhere else the native default applies. -/
def claimTab (freshFocusables : List Elem) (activeEl : Elem)
    (shift : Bool) : KeyOutcome :=
  match freshFocusables with
  | [] => { prevented := true, focusTarget := none }
  | x :: xs =>
    let firstElement := x
    let lastElement := (x :: xs).getLast (List.cons_ne_nil x xs)
    if shift then
      if activeEl = firstElement
      then { prevented := true, focusTarget := some lastElement }
      else { prevented := false, focusTarget := none }
    else
      if activeEl = lastElement
      then { prevented := true, focusTarget := some firstElement }
      else { prevented := false, focusTarget := none }

/-- `AccessibleModal.trapFocus(e)` in the `part_002` module (lines
85-105): it reads `this.focusableElements` — the list cached by `open` —
and never re-queries the document.  (Its `handleKeyDown` only calls it
when that cached list is nonempty.) -/
def trapFocusModule (cached : List Elem) (activeEl : Elem)
    (shift : Bool) : KeyOutcome :=
  match cached with
  | [] => { prevented := false, focusTarget := none }
  | x :: xs =>
    let firstElement := x
    let lastElement := (x :: xs).getLast (List.cons_ne_nil x xs)
    if shift then
      if activeEl = firstElement
      then { prevented := true, focusTarget := some lastElement }
      else { prevented := false, focusTarget := none }
    else
      if activeEl = lastElement
      then { prevented := true, focusTarget := some firstElement }
      else { prevented := false, focusTarget := none }

/-- The module's `handleKeyDown` Tab path (lines 110-122): `trapFocus`
runs only when the cached `focusableElements` list is nonempty, so an
empty cached set lets the default action through untouched. -/
def handleTabModule (cached : List Elem) (activeEl : Elem)
    (shift : Bool) : KeyOutcome :=
  if cached.length > 0 then trapFocusModule cached activeEl shift
  else { prevented := false, focusTarget := none }

end Modal

/-! ## Theorems -/

/-! ### C1: deck ids are never reused; the counter is seeded past the
snapshot's integer ids -/

theorem DeckM.le_foldl_max (vs : List Int) (v : Int) :
    v ≤ vs.foldl max v ∧ ∀ x ∈ vs, x ≤ vs.foldl max v := by
  induction vs generalizing v with
  | nil => simp
  | cons u us ih =>
    refine ⟨?_, ?_⟩
    · exact le_trans (le_max_left v u) (by simpa using (ih (max v u)).1)
    · intro x hx
      rcases List.mem_cons.mp hx with rfl | hx
      · exact le_trans (le_max_right v x) (by simpa using (ih (max v x)).1)
      · simpa using (ih (max v u)).2 x hx

theorem DeckM.step_spec (st : DeckM.State) (op : DeckM.Op) :
    st.nextId ≤ (DeckM.step st op).1.nextId ∧
    (∀ x ∈ (DeckM.step st op).2, st.nextId ≤ x ∧ x < (DeckM.step st op).1.nextId) := by
  cases op with
  | create name now =>
    by_cases hb : name = "" ∨ name.trim = ""
    · simp [DeckM.step, DeckM.createDeck, hb]
    · simp only [DeckM.step, DeckM.createDeck, hb, if_false]
      refine ⟨by omega, ?_⟩
      intro x hx
      simp only [List.mem_singleton] at hx
      subst hx
      omega
  | delete i =>
    simp only [DeckM.step, DeckM.deleteDeck]
    cases h : DeckM.removeById st.decks i with
    | none => simp
    | some p => simp
  | select i =>
    simp only [DeckM.step, DeckM.selectDeck]
    cases h : DeckM.getDeckById st i with
    | none => simp
    | some d => simp

theorem DeckM.step_ids_short (st : DeckM.State) (op : DeckM.Op) :
    (DeckM.step st op).2 = [] ∨ ∃ n, (DeckM.step st op).2 = [n] := by
  cases op with
  | create name now =>
    by_cases hb : name = "" ∨ name.trim = ""
    · simp [DeckM.step, DeckM.createDeck, hb]
    · simp [DeckM.step, DeckM.createDeck, hb]
  | delete i =>
    simp only [DeckM.step, DeckM.deleteDeck]
    cases h : DeckM.removeById st.decks i with
    | none => simp
    | some p => simp
  | select i =>
    simp only [DeckM.step, DeckM.selectDeck]
    cases h : DeckM.getDeckById st i with
    | none => simp
    | some d => simp

theorem DeckM.run_spec (ops : List DeckM.Op) (st : DeckM.State) :
    st.nextId ≤ (DeckM.run st ops).1.nextId ∧
    (∀ x ∈ (DeckM.run st ops).2, st.nextId ≤ x ∧ x < (DeckM.run st ops).1.nextId) := by
  induction ops generalizing st with
  | nil => simp [DeckM.run]
  | cons op ops ih =>
    have hstep := DeckM.step_spec st op
    have hrest := ih (DeckM.step st op).1
    simp only [DeckM.run]
    refine ⟨le_trans hstep.1 hrest.1, ?_⟩
    intro x hx
    rcases List.mem_append.mp hx with hx | hx
    · have := hstep.2 x hx
      exact ⟨this.1, lt_of_lt_of_le this.2 hrest.1⟩
    · have := hrest.2 x hx
      exact ⟨le_trans hstep.1 this.1, this.2⟩

theorem DeckM.run_ids_nodup (ops : List DeckM.Op) (st : DeckM.State) :
    ((DeckM.run st ops).2).Nodup := by
  induction ops generalizing st with
  | nil => simp [DeckM.run]
  | cons op ops ih =>
    simp only [DeckM.run]
    have hshort := DeckM.step_ids_short st op
    have hstep := DeckM.step_spec st op
    have hrest := DeckM.run_spec ops (DeckM.step st op).1
    refine List.Nodup.append ?_ (ih (DeckM.step st op).1) ?_
    · rcases hshort with h | ⟨n, h⟩ <;> simp [h]
    · intro x hx hx'
      have h1 := (hstep.2 x hx).2
      have h2 := (hrest.2 x hx').1
      omega

/-- Claim C1: every deck created by `createDeck` over a registry
lifetime gets an id distinct from that of every other deck created in
that lifetime (deletions included), and a lifetime begun from a loaded
snapshot seeds the counter one past the snapshot's highest integer deck
id, ignoring missing/non-integer ids, defaulting to 1 when no integer id
exists. -/
theorem created_deck_ids_never_reused
    (snapIds : List (Option Int)) (st : DeckM.State) (ops : List DeckM.Op)
    (hseed : st.nextId = DeckM.computeNextId snapIds) :
    ((DeckM.run st ops).2).Nodup ∧
    (∀ n : Int, some n ∈ snapIds → n < st.nextId) ∧
    (snapIds.filterMap (fun x => x) = [] → st.nextId = 1) := by
  refine ⟨DeckM.run_ids_nodup ops st, ?_, ?_⟩
  · intro n hn
    have hmem : n ∈ snapIds.filterMap (fun x => x) :=
      List.mem_filterMap.mpr ⟨some n, hn, rfl⟩
    rcases hval : snapIds.filterMap (fun x => x) with _ | ⟨v, vs⟩
    · rw [hval] at hmem; cases hmem
    · rw [hval] at hmem
      have hle : n ≤ vs.foldl max v := by
        rcases List.mem_cons.mp hmem with rfl | hmem
        · exact (DeckM.le_foldl_max vs n).1
        · exact (DeckM.le_foldl_max vs v).2 n hmem
      have : st.nextId = vs.foldl max v + 1 := by
        rw [hseed]; simp only [DeckM.computeNextId]; rw [hval]
      omega
  · intro hempty
    rw [hseed]; simp only [DeckM.computeNextId]; rw [hempty]

/-- Witness for C1 at a concrete snapshot (integer ids 2 and 5, one
non-integer id) and a concrete operation sequence that creates, deletes
and re-creates decks: the created ids are pairwise distinct. -/
theorem created_deck_ids_never_reused_witness :
    ((DeckM.run { decks := [], nextId := 6, selectedDeckId := none }
        [DeckM.Op.create "A" "t1", DeckM.Op.delete 6,
         DeckM.Op.create "B" "t2"]).2).Nodup :=
  (created_deck_ids_never_reused [some 2, none, some 5]
    { decks := [], nextId := 6, selectedDeckId := none }
    [DeckM.Op.create "A" "t1", DeckM.Op.delete 6, DeckM.Op.create "B" "t2"]
    (by decide)).1

/-! ### C2: `getAllDecks` hands out a fresh array, but a *shallow* copy:
the deck objects inside are shared with the registry -/

theorem DeckHeap.find_map_write_ne {β : Type} (xs : List (DeckHeap.Addr × β))
    (a : DeckHeap.Addr) (v : β) (b : DeckHeap.Addr) (h : b ≠ a) :
    (xs.map (fun p => if p.1 == a then (p.1, v) else p)).find? (fun p => p.1 == b) =
      xs.find? (fun p => p.1 == b) := by
  rw [List.find?_map]
  have hpred : ((fun p : DeckHeap.Addr × β => p.1 == b) ∘
      fun p => if p.1 == a then (p.1, v) else p) =
      fun p : DeckHeap.Addr × β => p.1 == b := by
    funext p
    by_cases hpa : p.1 = a <;> simp [Function.comp, hpa]
  rw [hpred]
  cases hfind : xs.find? (fun p : DeckHeap.Addr × β => p.1 == b) with
  | none => rfl
  | some p =>
    have hb : p.1 = b := by simpa using List.find?_some hfind
    simp [hb, h]

theorem DeckHeap.find_append_none {β : Type} (xs ys : List β) (p : β → Bool)
    (h : xs.find? p = none) : (xs ++ ys).find? p = ys.find? p := by
  induction xs with
  | nil => rfl
  | cons x xs ih =>
    by_cases hx : p x
    · rw [List.find?_cons_of_pos _ hx] at h
      cases h
    · rw [List.find?_cons_of_neg _ hx] at h
      rw [List.cons_append, List.find?_cons_of_neg _ hx]
      exact ih h

theorem DeckHeap.find_append_some {β : Type} (xs ys : List β) (p : β → Bool)
    (v : β) (h : xs.find? p = some v) : (xs ++ ys).find? p = some v := by
  induction xs with
  | nil => cases h
  | cons x xs ih =>
    by_cases hx : p x
    · rw [List.find?_cons_of_pos _ hx] at h
      rw [List.cons_append, List.find?_cons_of_pos _ hx]
      exact h
    · rw [List.find?_cons_of_neg _ hx] at h
      rw [List.cons_append, List.find?_cons_of_neg _ hx]
      exact ih h

theorem DeckHeap.lookupArr_writeArr_ne (w : DeckHeap.World) (a : DeckHeap.Addr)
    (l : List DeckHeap.Addr) (b : DeckHeap.Addr) (h : b ≠ a) :
    DeckHeap.lookupArr (DeckHeap.writeArr w a l) b = DeckHeap.lookupArr w b := by
  simp only [DeckHeap.lookupArr, DeckHeap.writeArr]
  rw [DeckHeap.find_map_write_ne w.arrays a l b h]

theorem DeckHeap.lookupArr_getAll_old (w : DeckHeap.World) (b : DeckHeap.Addr)
    (h : b ≠ w.nextAddr) :
    DeckHeap.lookupArr (DeckHeap.getAllDecks w).2 b = DeckHeap.lookupArr w b := by
  simp only [DeckHeap.lookupArr, DeckHeap.getAllDecks]
  cases hfind : w.arrays.find? (fun p => p.1 == b) with
  | none =>
    rw [DeckHeap.find_append_none _ _ _ hfind]
    have hne : (w.nextAddr == b) = false := by
      simp only [beq_eq_false_iff_ne]
      exact Ne.symm h
    rw [List.find?_cons_of_neg _ (by simp [hne])]
    rfl
  | some p =>
    rw [DeckHeap.find_append_some _ _ _ _ hfind]

theorem DeckHeap.lookupArr_getAll_fresh (w : DeckHeap.World)
    (hwf : DeckHeap.wf w) :
    DeckHeap.lookupArr (DeckHeap.getAllDecks w).2 (DeckHeap.getAllDecks w).1 =
      DeckHeap.lookupArr w w.registryArr := by
  obtain ⟨hwf1, _⟩ := hwf
  simp only [DeckHeap.lookupArr, DeckHeap.getAllDecks]
  have hnone : w.arrays.find? (fun p => p.1 == w.nextAddr) = none := by
    apply List.find?_eq_none.mpr
    intro p hp
    intro hcontra
    have hlt := hwf1 p hp
    have heq : p.1 = w.nextAddr := by simpa using hcontra
    exact absurd heq (Nat.ne_of_lt hlt)
  rw [DeckHeap.find_append_none _ _ _ hnone]
  rw [List.find?_cons_of_pos _ (by simp)]
  rfl

theorem DeckHeap.lookupObj_writeArr (w : DeckHeap.World) (a : DeckHeap.Addr)
    (l : List DeckHeap.Addr) (x : DeckHeap.Addr) :
    DeckHeap.lookupObj (DeckHeap.writeArr w a l) x = DeckHeap.lookupObj w x := rfl

theorem DeckHeap.lookupObj_getAll (w : DeckHeap.World) (x : DeckHeap.Addr) :
    DeckHeap.lookupObj (DeckHeap.getAllDecks w).2 x = DeckHeap.lookupObj w x := rfl

/-- Claim C2 is refuted on the deck objects: the caller takes the array
returned by `getAllDecks` on the one-deck world `w0`, follows the deck
reference it contains (address 1, which the second conjunct shows is an
element of the returned array), assigns `deck.name = "Changed"` — and a
subsequent `getDeckById(1)` observes the changed name: the registry's
internal state, as observed by `getDeckById`, is no longer what it was. -/
theorem getAllDecks_object_mutation_visible :
    DeckHeap.getDeckById
        (DeckHeap.writeDeckName (DeckHeap.getAllDecks DeckHeap.w0).2 1 "Changed") 1 ≠
      DeckHeap.getDeckById DeckHeap.w0 1 ∧
    1 ∈ DeckHeap.lookupArr (DeckHeap.getAllDecks DeckHeap.w0).2
        (DeckHeap.getAllDecks DeckHeap.w0).1 := by
  decide

/-- Claim C2, amended: `getAllDecks` returns a *fresh array that shares
the deck references* (`[...this.decks]` is a shallow copy).  Mutating the
returned sequence itself — replacing its contents by any list `l` —
leaves the registry's internal state, as observed by `getAllDecks`
values or `getDeckById`, unchanged; but the array's elements are the
registry's own deck objects, so mutating those objects (refutation
above) does change the observed state. -/
theorem getAllDecks_shallow_copy_semantics
    (w : DeckHeap.World) (hwf : DeckHeap.wf w) (l : List DeckHeap.Addr) (i : Int) :
    DeckHeap.lookupArr (DeckHeap.getAllDecks w).2 (DeckHeap.getAllDecks w).1 =
      DeckHeap.lookupArr w w.registryArr ∧
    DeckHeap.internalDecks
        (DeckHeap.writeArr (DeckHeap.getAllDecks w).2 (DeckHeap.getAllDecks w).1 l) =
      DeckHeap.internalDecks w ∧
    DeckHeap.getDeckById
        (DeckHeap.writeArr (DeckHeap.getAllDecks w).2 (DeckHeap.getAllDecks w).1 l) i =
      DeckHeap.getDeckById w i := by
  have hreg_ne : w.registryArr ≠ w.nextAddr := by
    obtain ⟨_, hwf2⟩ := hwf
    exact Nat.ne_of_lt hwf2
  have hdecks :
      DeckHeap.internalDecks
          (DeckHeap.writeArr (DeckHeap.getAllDecks w).2 (DeckHeap.getAllDecks w).1 l) =
        DeckHeap.internalDecks w := by
    simp only [DeckHeap.internalDecks]
    have harr :
        DeckHeap.lookupArr
            (DeckHeap.writeArr (DeckHeap.getAllDecks w).2 (DeckHeap.getAllDecks w).1 l)
            (DeckHeap.writeArr (DeckHeap.getAllDecks w).2 (DeckHeap.getAllDecks w).1 l).registryArr =
          DeckHeap.lookupArr w w.registryArr := by
      have h1 : (DeckHeap.writeArr (DeckHeap.getAllDecks w).2 (DeckHeap.getAllDecks w).1 l).registryArr
          = w.registryArr := rfl
      rw [h1]
      rw [DeckHeap.lookupArr_writeArr_ne _ _ _ _ (by exact hreg_ne)]
      exact DeckHeap.lookupArr_getAll_old w w.registryArr hreg_ne
    rw [harr]
    apply List.filterMap_congr
    intro a _
    rw [DeckHeap.lookupObj_writeArr, DeckHeap.lookupObj_getAll]
  refine ⟨DeckHeap.lookupArr_getAll_fresh w hwf, hdecks, ?_⟩
  simp only [DeckHeap.getDeckById]
  rw [hdecks]

/-- Witness for C2's amended theorem on the concrete world `w0`, with the
returned array's contents replaced by the empty list: internal
observations are unchanged. -/
theorem getAllDecks_shallow_copy_semantics_witness :
    DeckHeap.lookupArr (DeckHeap.getAllDecks DeckHeap.w0).2 (DeckHeap.getAllDecks DeckHeap.w0).1 =
      DeckHeap.lookupArr DeckHeap.w0 DeckHeap.w0.registryArr ∧
    DeckHeap.internalDecks
        (DeckHeap.writeArr (DeckHeap.getAllDecks DeckHeap.w0).2 (DeckHeap.getAllDecks DeckHeap.w0).1 []) =
      DeckHeap.internalDecks DeckHeap.w0 ∧
    DeckHeap.getDeckById
        (DeckHeap.writeArr (DeckHeap.getAllDecks DeckHeap.w0).2 (DeckHeap.getAllDecks DeckHeap.w0).1 []) 1 =
      DeckHeap.getDeckById DeckHeap.w0 1 :=
  getAllDecks_shallow_copy_semantics DeckHeap.w0 (by decide) [] 1

/-! ### C3: a throwing observer callback aborts the dispatch -/

theorem Observers.notifyRun_all_ok (obs : List Nat) (beh : Nat → Bool)
    (hok : ∀ c ∈ obs, beh c = false) :
    Observers.notifyRun obs beh = (obs, false) := by
  induction obs with
  | nil => rfl
  | cons c cs ih =>
    have hc : beh c = false := hok c (List.mem_cons_self c cs)
    have hrest := ih (fun x hx => hok x (List.mem_cons_of_mem c hx))
    simp [Observers.notifyRun, hc, hrest]

/-- Claim C3 is refuted at a concrete dispatch: with callbacks `[0, 1]`
subscribed in that order and callback `0` throwing, `forEach` invokes
only `[0]` — callback `1`, subscribed after the thrower, is never
invoked — and the exception escapes `notifyObservers`, so the publishing
mutation operation does not complete normally. -/
theorem notify_throwing_callback_skips_rest :
    (Observers.notifyRun [0, 1] Observers.behZeroThrows).1 = [0] ∧
    1 ∉ (Observers.notifyRun [0, 1] Observers.behZeroThrows).1 ∧
    (Observers.notifyRun [0, 1] Observers.behZeroThrows).2 = true := by
  decide

/-- Claim C3, amended: `notifyObservers` invokes the callbacks in
subscription order, but with no per-callback isolation — when every
callback returns normally all of them run in order and the dispatch
completes; when some callback throws, the callbacks before it run, the
thrower runs, every callback after it is skipped, and the exception
propagates out of the publishing operation. -/
theorem notify_in_order_until_first_throw (obs : List Nat) (beh : Nat → Bool) :
    ((∀ c ∈ obs, beh c = false) →
      Observers.notifyRun obs beh = (obs, false)) ∧
    (∀ pre c post, obs = pre ++ c :: post → (∀ x ∈ pre, beh x = false) →
      beh c = true →
      Observers.notifyRun obs beh = (pre ++ [c], true)) := by
  refine ⟨Observers.notifyRun_all_ok obs beh, ?_⟩
  intro pre c post hobs hpre hc
  subst hobs
  induction pre with
  | nil => simp [Observers.notifyRun, hc]
  | cons x xs ih =>
    have hx : beh x = false := hpre x (List.mem_cons_self x xs)
    have ih' : Observers.notifyRun (xs.append (c :: post)) beh = (xs ++ [c], true) :=
      ih (fun y hy => hpre y (List.mem_cons_of_mem x hy))
    simp only [List.cons_append, Observers.notifyRun, hx, Bool.false_eq_true,
      if_false]
    rw [ih']

/-- Witness for C3's amended theorem: both branches instantiated — the
all-normal branch on `[1, 2]` with never-throwing behaviour, and the
throwing branch on `[0, 1]` where callback `0` throws with no callback
before it. -/
theorem notify_in_order_until_first_throw_witness :
    Observers.notifyRun [1, 2] (fun _ => false) = ([1, 2], false) ∧
    Observers.notifyRun [0, 1] Observers.behZeroThrows = ([0], true) :=
  ⟨(notify_in_order_until_first_throw [1, 2] (fun _ => false)).1
      (fun _ _ => rfl),
   (notify_in_order_until_first_throw [0, 1] Observers.behZeroThrows).2
      [] 0 [1] rfl (fun x hx => absurd hx (List.not_mem_nil x)) rfl⟩

/-! ### C10: duplicate subscription doubles delivery; one unsubscribe
removes every occurrence -/

/-- Claim C10: `subscribe` appends without a duplicate check, so after
subscribing the same callback twice it is invoked twice more per
published event than before (in particular twice when it was not yet
subscribed), while a single `unsubscribe` filters out every occurrence,
after which it is invoked zero times. -/
theorem subscribe_twice_unsubscribe_all (obs : List Nat) (cb : Nat)
    (beh : Nat → Bool) (hok : ∀ c, beh c = false) :
    ((Observers.notifyRun
        (Observers.subscribe (Observers.subscribe obs cb) cb) beh).1.count cb =
      obs.count cb + 2) ∧
    ((Observers.notifyRun
        (Observers.unsubscribe
          (Observers.subscribe (Observers.subscribe obs cb) cb) cb) beh).1.count cb =
      0) := by
  have h1 := Observers.notifyRun_all_ok
    (Observers.subscribe (Observers.subscribe obs cb) cb) beh
    (fun c _ => hok c)
  have h2 := Observers.notifyRun_all_ok
    (Observers.unsubscribe (Observers.subscribe (Observers.subscribe obs cb) cb) cb) beh
    (fun c _ => hok c)
  rw [h1, h2]
  constructor
  · simp [Observers.subscribe]
  · simp only [Observers.unsubscribe]
    rw [List.count_eq_zero]
    intro hmem
    have := List.of_mem_filter hmem
    simp at this

/-! ### C4: deleting the selected deck clears the selection before the
`deckDeleted` event is published -/

/-- Claim C4: when the deck being deleted is the currently selected one
(and it exists, here as the first match removed by the splice),
`deleteDeck` succeeds, the registry state visible to subscribers during
the `deckDeleted` notification already has `selectedDeckId = null`, the
event payload is exactly the removed deck object, and after the
operation `selectedDeckId` is still `null`. -/
theorem deleteDeck_clears_selection_before_publish
    (st : DeckM.State) (i : Int) (d : DeckM.Deck) (rest : List DeckM.Deck)
    (hsel : st.selectedDeckId = some i)
    (hrem : DeckM.removeById st.decks i = some (d, rest)) :
    ∃ r : DeckM.DeleteOut,
      DeckM.deleteDeck st i = some r ∧
      r.stateAtPublish.selectedDeckId = none ∧
      r.event = ("deckDeleted", d) ∧
      r.final.selectedDeckId = none := by
  simp only [DeckM.deleteDeck, hrem]
  refine ⟨_, rfl, ?_, ?_, ?_⟩ <;> simp [hsel]

/-- Witness for C4 on a concrete registry: one deck (id 3) which is
selected; deleting it publishes the deck as payload with the selection
already cleared. -/
theorem deleteDeck_clears_selection_before_publish_witness :
    ∃ r : DeckM.DeleteOut,
      DeckM.deleteDeck
        { decks := [{ id := 3, name := "Spanish", cards := [], createdAt := "t0" }]
        , nextId := 4, selectedDeckId := some 3 } 3 = some r ∧
      r.stateAtPublish.selectedDeckId = none ∧
      r.event = ("deckDeleted",
        { id := 3, name := "Spanish", cards := [], createdAt := "t0" }) ∧
      r.final.selectedDeckId = none :=
  deleteDeck_clears_selection_before_publish
    { decks := [{ id := 3, name := "Spanish", cards := [], createdAt := "t0" }]
    , nextId := 4, selectedDeckId := some 3 } 3
    { id := 3, name := "Spanish", cards := [], createdAt := "t0" } []
    rfl (by decide)

/-! ### C5: study-mode `next`/`previous` are mutually inverse on the
index; size-1 decks are fixed; out-of-range indices normalize to 0 -/

theorem Study.normIdx_of_mem (i n : Int) (h0 : 0 ≤ i) (h1 : i < n) :
    Study.normIdx i n = i := by
  unfold Study.normIdx
  rw [if_neg]
  omega

theorem Study.prev_next_roundtrip (i n : Int) (h0 : 0 ≤ i) (h1 : i < n) :
    Study.prevIdx (Study.nextIdx i n) n = i := by
  have hn : 0 < n := by omega
  have hnext : Study.nextIdx i n = (i + 1) % n := by
    unfold Study.nextIdx
    rw [Study.normIdx_of_mem i n h0 h1]
  by_cases hcase : i + 1 < n
  · have h2 : (i + 1) % n = i + 1 := Int.emod_eq_of_lt (by omega) hcase
    unfold Study.prevIdx
    rw [hnext, h2, Study.normIdx_of_mem (i + 1) n (by omega) hcase]
    have h3 : i + 1 - 1 + n = i + 1 * n := by ring
    rw [h3, Int.add_mul_emod_self]
    exact Int.emod_eq_of_lt h0 h1
  · have hin : i + 1 = n := by omega
    have h2 : (i + 1) % n = 0 := by rw [hin, Int.emod_self]
    unfold Study.prevIdx
    rw [hnext, h2, Study.normIdx_of_mem 0 n le_rfl hn]
    have h3 : (0 : Int) - 1 + n = n - 1 := by ring
    rw [h3, Int.emod_eq_of_lt (by omega) (by omega)]
    omega

theorem Study.next_prev_roundtrip (i n : Int) (h0 : 0 ≤ i) (h1 : i < n) :
    Study.nextIdx (Study.prevIdx i n) n = i := by
  have hn : 0 < n := by omega
  have hprev : Study.prevIdx i n = (i - 1 + n) % n := by
    unfold Study.prevIdx
    rw [Study.normIdx_of_mem i n h0 h1]
  by_cases hcase : 0 < i
  · have h2 : (i - 1 + n) % n = i - 1 := by
      have h4 : i - 1 + n = i - 1 + 1 * n := by ring
      rw [h4, Int.add_mul_emod_self]
      exact Int.emod_eq_of_lt (by omega) (by omega)
    unfold Study.nextIdx
    rw [hprev, h2, Study.normIdx_of_mem (i - 1) n (by omega) (by omega)]
    have h3 : i - 1 + 1 = i := by ring
    rw [h3]
    exact Int.emod_eq_of_lt h0 h1
  · have hi0 : i = 0 := by omega
    have h2 : (i - 1 + n) % n = n - 1 := by
      rw [hi0]
      have h3 : (0 : Int) - 1 + n = n - 1 := by ring
      rw [h3]
      exact Int.emod_eq_of_lt (by omega) (by omega)
    unfold Study.nextIdx
    rw [hprev, h2, Study.normIdx_of_mem (n - 1) n (by omega) (by omega)]
    have h3 : n - 1 + 1 = n := by ring
    rw [h3, Int.emod_self, hi0]

theorem Study.studyModeNext_spec (dm : DeckM.State) (ui : Study.UIState)
    (sm : Study.StudyMode) (deck : DeckM.Deck)
    (hsm : ui.studyMode = some sm) (hact : sm.active = true)
    (hdeck : DeckM.getDeckById dm sm.deckId = some deck)
    (hne : deck.cards.length ≠ 0) :
    ∃ sm', (Study.studyModeNext dm ui).studyMode = some sm' ∧
      sm'.active = true ∧ sm'.deckId = sm.deckId ∧
      sm'.currentIndex = Study.nextIdx sm.currentIndex (deck.cards.length : Int) := by
  simp only [Study.studyModeNext, hsm, hact, hdeck, hne, Bool.true_eq_false,
    if_false, if_neg hne]
  exact ⟨_, rfl, rfl, rfl, rfl⟩

theorem Study.studyModePrevious_spec (dm : DeckM.State) (ui : Study.UIState)
    (sm : Study.StudyMode) (deck : DeckM.Deck)
    (hsm : ui.studyMode = some sm) (hact : sm.active = true)
    (hdeck : DeckM.getDeckById dm sm.deckId = some deck)
    (hne : deck.cards.length ≠ 0) :
    ∃ sm', (Study.studyModePrevious dm ui).studyMode = some sm' ∧
      sm'.active = true ∧ sm'.deckId = sm.deckId ∧
      sm'.currentIndex = Study.prevIdx sm.currentIndex (deck.cards.length : Int) := by
  simp only [Study.studyModePrevious, hsm, hact, hdeck, hne, Bool.true_eq_false,
    if_false, if_neg hne]
  exact ⟨_, rfl, rfl, rfl, rfl⟩

/-- Claim C5: for an active study session over a non-empty deck,
`next` then `previous` (and `previous` then `next`) restores the current
index whenever it starts in `[0, N)`; for `N = 1` each single move leaves
the (in-range) index unchanged; and a session whose index has drifted
out of range is normalized to 0 before the move is computed, so `next`
lands on `(0+1) % N` and `previous` on `(0-1+N) % N`. -/
theorem study_next_previous_roundtrip
    (dm : DeckM.State) (ui : Study.UIState) (sm : Study.StudyMode)
    (deck : DeckM.Deck)
    (hsm : ui.studyMode = some sm) (hact : sm.active = true)
    (hdeck : DeckM.getDeckById dm sm.deckId = some deck)
    (hne : deck.cards.length ≠ 0) :
    ((0 ≤ sm.currentIndex ∧ sm.currentIndex < (deck.cards.length : Int)) →
      Study.currentIndexOf (Study.studyModePrevious dm (Study.studyModeNext dm ui)) =
        some sm.currentIndex ∧
      Study.currentIndexOf (Study.studyModeNext dm (Study.studyModePrevious dm ui)) =
        some sm.currentIndex) ∧
    ((deck.cards.length = 1 ∧ 0 ≤ sm.currentIndex ∧
        sm.currentIndex < (deck.cards.length : Int)) →
      Study.currentIndexOf (Study.studyModeNext dm ui) = some sm.currentIndex ∧
      Study.currentIndexOf (Study.studyModePrevious dm ui) = some sm.currentIndex) ∧
    ((sm.currentIndex < 0 ∨ (deck.cards.length : Int) ≤ sm.currentIndex) →
      Study.currentIndexOf (Study.studyModeNext dm ui) =
        some ((0 + 1) % (deck.cards.length : Int)) ∧
      Study.currentIndexOf (Study.studyModePrevious dm ui) =
        some ((0 - 1 + (deck.cards.length : Int)) % (deck.cards.length : Int))) := by
  refine ⟨?_, ?_, ?_⟩
  · rintro ⟨h0, h1⟩
    obtain ⟨sm1, hsm1, hact1, hdid1, hidx1⟩ :=
      Study.studyModeNext_spec dm ui sm deck hsm hact hdeck hne
    obtain ⟨sm2, hsm2, _, _, hidx2⟩ :=
      Study.studyModePrevious_spec dm (Study.studyModeNext dm ui) sm1 deck hsm1
        hact1 (by rw [hdid1]; exact hdeck) hne
    obtain ⟨sm3, hsm3, hact3, hdid3, hidx3⟩ :=
      Study.studyModePrevious_spec dm ui sm deck hsm hact hdeck hne
    obtain ⟨sm4, hsm4, _, _, hidx4⟩ :=
      Study.studyModeNext_spec dm (Study.studyModePrevious dm ui) sm3 deck hsm3
        hact3 (by rw [hdid3]; exact hdeck) hne
    have hr1 := Study.prev_next_roundtrip sm.currentIndex (deck.cards.length : Int) h0 h1
    have hr2 := Study.next_prev_roundtrip sm.currentIndex (deck.cards.length : Int) h0 h1
    constructor
    · simp [Study.currentIndexOf, hsm2, Option.map_some', hidx2, hidx1, hr1]
    · simp [Study.currentIndexOf, hsm4, Option.map_some', hidx4, hidx3, hr2]
  · rintro ⟨hone, h0, h1⟩
    obtain ⟨sm1, hsm1, _, _, hidx1⟩ :=
      Study.studyModeNext_spec dm ui sm deck hsm hact hdeck hne
    obtain ⟨sm3, hsm3, _, _, hidx3⟩ :=
      Study.studyModePrevious_spec dm ui sm deck hsm hact hdeck hne
    have hi0 : sm.currentIndex = 0 := by
      rw [hone] at h1
      simp only [Nat.cast_one] at h1
      omega
    have hfix1 : Study.nextIdx 0 (1 : Int) = 0 := by decide
    have hfix2 : Study.prevIdx 0 (1 : Int) = 0 := by decide
    constructor
    · simp [Study.currentIndexOf, hsm1, Option.map_some', hidx1, hone, hi0, hfix1]
    · simp [Study.currentIndexOf, hsm3, Option.map_some', hidx3, hone, hi0, hfix2]
  · intro hout
    obtain ⟨sm1, hsm1, _, _, hidx1⟩ :=
      Study.studyModeNext_spec dm ui sm deck hsm hact hdeck hne
    obtain ⟨sm3, hsm3, _, _, hidx3⟩ :=
      Study.studyModePrevious_spec dm ui sm deck hsm hact hdeck hne
    have hnorm : Study.normIdx sm.currentIndex (deck.cards.length : Int) = 0 := by
      unfold Study.normIdx
      rw [if_pos hout]
    have hn1 : Study.nextIdx sm.currentIndex (deck.cards.length : Int) =
        (0 + 1) % (deck.cards.length : Int) := by
      unfold Study.nextIdx
      rw [hnorm]
    have hn2 : Study.prevIdx sm.currentIndex (deck.cards.length : Int) =
        (0 - 1 + (deck.cards.length : Int)) % (deck.cards.length : Int) := by
      unfold Study.prevIdx
      rw [hnorm]
    constructor
    · simp [Study.currentIndexOf, hsm1, Option.map_some', hidx1, hn1]
    · simp [Study.currentIndexOf, hsm3, Option.map_some', hidx3, hn2]

/-- Witness for C5 on a 3-card deck with the session at index 1:
`next` then `previous` restores index 1. -/
theorem study_next_previous_roundtrip_witness :
    Study.currentIndexOf
        (Study.studyModePrevious Study.sampleDm
          (Study.studyModeNext Study.sampleDm Study.sampleUi)) = some 1 :=
  ((study_next_previous_roundtrip Study.sampleDm Study.sampleUi Study.sampleSm
      Study.sampleDeck rfl rfl (by decide) (by decide)).1
    ⟨by decide, by decide⟩).1

/-! ### C6: the search matches against the *trimmed* case-folded query -/

/-- Claim C6 is refuted on the query `" hola"` (non-blank after
trimming) over a single card with front `"hola"`: the code's `search`
normalizes the query with `toLowerCase().trim()` and finds the card
(match count 1), while the claim's predicate — the case-folded query as
a substring of the case-folded fields — matches nothing, since
`"hola"` does not contain `" hola"`. -/
theorem search_counterexample_untrimmed_query :
    SearchM.searchOutcome [{ front := "hola", back := "hello" }] " hola" =
      ([{ front := "hola", back := "hello" }], 1) ∧
    SearchM.claimSearchFolded [{ front := "hola", back := "hello" }] " hola" =
      ([], 0) := by
  decide

/-- Claim C6, amended: a query that is empty or blank after trimming
yields the full input list with match count equal to its length; a
non-blank query yields exactly the subsequence of cards whose
case-folded front or back contains the case-folded *and trimmed* query
as a substring; and the result is always a subsequence of the input
(the cards in it are the input's own card values, unmodified — the
embedding is pure, so no mutation of the input is possible). -/
theorem search_normalizes_query_and_filters
    (cards : List SearchM.Card) (query : String) :
    SearchM.searchOutcome cards query =
      SearchM.claimSearchTrimmedFolded cards query ∧
    (SearchM.searchOutcome cards query).1.Sublist cards := by
  constructor
  · unfold SearchM.searchOutcome SearchM.claimSearchTrimmedFolded
      SearchM.filterCards SearchM.claimMatchTrimmedFolded
    rfl
  · unfold SearchM.searchOutcome
    split
    · exact List.Sublist.refl cards
    · exact List.filter_sublist cards

/-! ### C7: `loadState` always returns a well-formed snapshot -/

theorem StorageM.setField_obj (fs : List (String × StorageM.JsVal)) (k : String)
    (x : StorageM.JsVal) :
    ∃ fs', StorageM.setField (.obj fs) k x = .obj fs' := by
  simp only [StorageM.setField]
  split <;> exact ⟨_, rfl⟩

theorem StorageM.find_set_same (fs : List (String × StorageM.JsVal)) (k : String)
    (x : StorageM.JsVal) (h : fs.any (fun p => p.1 == k) = true) :
    ((fs.map (fun p => if p.1 == k then (p.1, x) else p)).find?
      (fun p => p.1 == k)).map (fun p => p.2) = some x := by
  induction fs with
  | nil => cases h
  | cons p ps ih =>
    obtain ⟨pk, pv⟩ := p
    by_cases hpk : pk = k
    · subst hpk
      rw [List.map_cons, List.find?_cons_of_pos _ (by simp)]
      simp
    · rw [List.map_cons, List.find?_cons_of_neg _ (by simp [hpk])]
      have htail : ps.any (fun p => p.1 == k) = true := by
        simp only [List.any_cons] at h
        rcases Bool.or_eq_true_iff.mp h with hh | hh
        · simp at hh
          exact absurd hh hpk
        · exact hh
      exact ih htail

theorem StorageM.find_map_write_ne_str (fs : List (String × StorageM.JsVal))
    (k : String) (x : StorageM.JsVal) (k' : String) (h : k' ≠ k) :
    (fs.map (fun p => if p.1 == k then (p.1, x) else p)).find?
        (fun p => p.1 == k') =
      fs.find? (fun p => p.1 == k') := by
  rw [List.find?_map]
  have hpred : ((fun p : String × StorageM.JsVal => p.1 == k') ∘
      fun p => if p.1 == k then (p.1, x) else p) =
      fun p : String × StorageM.JsVal => p.1 == k' := by
    funext p
    by_cases hpk : p.1 = k <;> simp [Function.comp, hpk]
  rw [hpred]
  cases hfind : fs.find? (fun p : String × StorageM.JsVal => p.1 == k') with
  | none => rfl
  | some p =>
    have hb : p.1 = k' := by simpa using List.find?_some hfind
    simp [hb, h]

theorem StorageM.getField_setField_same (fs : List (String × StorageM.JsVal))
    (k : String) (x : StorageM.JsVal) :
    StorageM.getField (StorageM.setField (.obj fs) k x) k = some x := by
  simp only [StorageM.setField]
  by_cases h : fs.any (fun p => p.1 == k) = true
  · rw [if_pos h]
    exact StorageM.find_set_same fs k x h
  · rw [if_neg h]
    simp only [StorageM.getField]
    have hnone : fs.find? (fun p => p.1 == k) = none := by
      rw [List.find?_eq_none]
      intro p hp hcontra
      exact h (List.any_eq_true.mpr ⟨p, hp, hcontra⟩)
    rw [DeckHeap.find_append_none _ _ _ hnone]
    rw [List.find?_cons_of_pos _ (by simp)]
    rfl

theorem StorageM.getField_setField_ne (v : StorageM.JsVal) (k : String)
    (x : StorageM.JsVal) (k' : String) (h : k' ≠ k) :
    StorageM.getField (StorageM.setField v k x) k' = StorageM.getField v k' := by
  cases v with
  | obj fs =>
    simp only [StorageM.setField]
    by_cases hany : fs.any (fun p => p.1 == k) = true
    · rw [if_pos hany]
      simp only [StorageM.getField]
      rw [StorageM.find_map_write_ne_str fs k x k' h]
    · rw [if_neg hany]
      simp only [StorageM.getField]
      cases hfind : fs.find? (fun p => p.1 == k') with
      | none =>
        rw [DeckHeap.find_append_none _ _ _ hfind]
        rw [List.find?_cons_of_neg _ (by simp; exact fun hh => h hh.symm)]
        rfl
      | some p =>
        rw [DeckHeap.find_append_some _ _ _ _ hfind]
  | null => rfl
  | bool b => rfl
  | num q => rfl
  | str s => rfl
  | arr xs => rfl

theorem StorageM.valid_is_obj (data : StorageM.JsVal)
    (hv : StorageM.isValidStateStructure data = true) :
    ∃ fs, data = .obj fs := by
  cases data with
  | obj fs => exact ⟨fs, rfl⟩
  | arr xs =>
    simp [StorageM.isValidStateStructure, StorageM.decksIsArray,
      StorageM.getField] at hv
  | null => simp [StorageM.isValidStateStructure, StorageM.isObjLike] at hv
  | bool b => simp [StorageM.isValidStateStructure, StorageM.isObjLike] at hv
  | num q => simp [StorageM.isValidStateStructure, StorageM.isObjLike] at hv
  | str s => simp [StorageM.isValidStateStructure, StorageM.isObjLike] at hv

theorem StorageM.valid_parts (data : StorageM.JsVal)
    (hv : StorageM.isValidStateStructure data = true) :
    StorageM.isObjLike data = true ∧ StorageM.decksIsArray data = true ∧
      StorageM.selectedOk data = true := by
  simp only [StorageM.isValidStateStructure, Bool.and_eq_true] at hv
  exact ⟨hv.1.1, hv.1.2, hv.2⟩

theorem StorageM.valid_intro (data : StorageM.JsVal)
    (h1 : StorageM.isObjLike data = true) (h2 : StorageM.decksIsArray data = true)
    (h3 : StorageM.selectedOk data = true) :
    StorageM.isValidStateStructure data = true := by
  simp [StorageM.isValidStateStructure, h1, h2, h3]

theorem StorageM.isValid_setField_version (data : StorageM.JsVal)
    (hv : StorageM.isValidStateStructure data = true) :
    StorageM.isValidStateStructure
      (StorageM.setField data "version" (.num 1)) = true := by
  obtain ⟨fs, rfl⟩ := StorageM.valid_is_obj data hv
  obtain ⟨h1, h2, h3⟩ := StorageM.valid_parts _ hv
  apply StorageM.valid_intro
  · obtain ⟨fs2, hfs2⟩ := StorageM.setField_obj fs "version" (.num 1)
    rw [hfs2]
    rfl
  · unfold StorageM.decksIsArray
    rw [StorageM.getField_setField_ne _ _ _ _ (by decide)]
    unfold StorageM.decksIsArray at h2
    exact h2
  · unfold StorageM.selectedOk
    rw [StorageM.getField_setField_ne _ _ _ _ (by decide)]
    unfold StorageM.selectedOk at h3
    exact h3

theorem StorageM.isValid_migrateToV1 (now : String) (data : StorageM.JsVal)
    (hv : StorageM.isValidStateStructure data = true) :
    StorageM.isValidStateStructure (StorageM.migrateToV1 now data) = true := by
  obtain ⟨fs, rfl⟩ := StorageM.valid_is_obj data hv
  obtain ⟨h1, h2, h3⟩ := StorageM.valid_parts _ hv
  have key : ∀ xs : List StorageM.JsVal,
      StorageM.isValidStateStructure
        (StorageM.setField
          (StorageM.setField (.obj fs) "decks" (.arr xs)) "version" (.num 1)) = true := by
    intro xs
    apply StorageM.valid_intro
    · obtain ⟨fs1, hfs1⟩ := StorageM.setField_obj fs "decks" (StorageM.JsVal.arr xs)
      rw [hfs1]
      obtain ⟨fs2, hfs2⟩ := StorageM.setField_obj fs1 "version" (StorageM.JsVal.num 1)
      rw [hfs2]
      rfl
    · unfold StorageM.decksIsArray
      rw [StorageM.getField_setField_ne _ _ _ _ (by decide)]
      rw [StorageM.getField_setField_same]
    · unfold StorageM.selectedOk
      rw [StorageM.getField_setField_ne _ _ _ _ (by decide)]
      rw [StorageM.getField_setField_ne _ _ _ _ (by decide)]
      unfold StorageM.selectedOk at h3
      exact h3
  have hM : ∃ xs : List StorageM.JsVal,
      (match StorageM.jsOr (StorageM.getField (.obj fs) "decks") (.arr []) with
        | StorageM.JsVal.arr ys => StorageM.JsVal.arr (ys.map (StorageM.fixDeck now))
        | _ => StorageM.JsVal.arr []) = StorageM.JsVal.arr xs := by
    cases StorageM.jsOr (StorageM.getField (.obj fs) "decks") (.arr []) <;>
      exact ⟨_, rfl⟩
  obtain ⟨xs, hxs⟩ := hM
  show StorageM.isValidStateStructure
    (StorageM.setField
      (StorageM.setField (.obj fs) "decks"
        (match StorageM.jsOr (StorageM.getField (.obj fs) "decks") (.arr []) with
          | StorageM.JsVal.arr ys => StorageM.JsVal.arr (ys.map (StorageM.fixDeck now))
          | _ => StorageM.JsVal.arr [])) "version" (.num 1)) = true
  rw [hxs]
  exact key xs

theorem StorageM.isValid_migrateState (now : String) (data : StorageM.JsVal)
    (hv : StorageM.isValidStateStructure data = true) :
    StorageM.isValidStateStructure (StorageM.migrateState now data) = true := by
  show StorageM.isValidStateStructure
    (StorageM.setField
      (if StorageM.migrationLoopHitsV1
          (StorageM.jsOr (StorageM.getField data "version") (.num 0)) = true
        then StorageM.migrateToV1 now data else data) "version" (.num 1)) = true
  split
  · exact StorageM.isValid_setField_version _ (StorageM.isValid_migrateToV1 now data hv)
  · exact StorageM.isValid_setField_version _ hv

theorem StorageM.isValid_default (now : String) :
    StorageM.isValidStateStructure (StorageM.getDefaultState now) = true := rfl

/-- Claim C7: for every storage environment — storage unavailable,
nothing stored, stored text that is not JSON, a parsed value that fails
structural validation (`decks` not an array, `selectedDeckId` neither
null nor a number), or a valid snapshot of any version — `loadState`
returns a snapshot satisfying its own structural validation, and that
snapshot is either the empty default or the stored validated value
(migrated when its version is not the current one); every internal
failure is absorbed, none escapes to the caller. -/
theorem loadState_fails_soft (env : StorageM.LoadEnv) (now : String) :
    StorageM.isValidStateStructure (StorageM.loadState env now) = true ∧
    (StorageM.loadState env now = StorageM.getDefaultState now ∨
      ∃ v, env.stored = some (some v) ∧
        StorageM.isValidStateStructure v = true ∧
        (StorageM.loadState env now = v ∨
          StorageM.loadState env now = StorageM.migrateState now v)) := by
  cases henv : env.available with
  | false =>
    have heval : StorageM.loadState env now = StorageM.getDefaultState now := by
      simp only [StorageM.loadState, henv, Bool.not_false, if_true]
    rw [heval]
    exact ⟨StorageM.isValid_default now, Or.inl rfl⟩
  | true =>
    cases hst : env.stored with
    | none =>
      have heval : StorageM.loadState env now = StorageM.getDefaultState now := by
        simp only [StorageM.loadState, henv, Bool.not_true, Bool.false_eq_true,
          if_false, hst]
      rw [heval]
      exact ⟨StorageM.isValid_default now, Or.inl rfl⟩
    | some o =>
      cases o with
      | none =>
        have heval : StorageM.loadState env now = StorageM.getDefaultState now := by
          simp only [StorageM.loadState, henv, Bool.not_true, Bool.false_eq_true,
            if_false, hst]
        rw [heval]
        exact ⟨StorageM.isValid_default now, Or.inl rfl⟩
      | some v =>
        by_cases hv : StorageM.isValidStateStructure v = true
        · have hbase : StorageM.loadState env now =
              (match StorageM.getField v "version" with
                | some (StorageM.JsVal.num q) =>
                  if q = 1 then v else StorageM.migrateState now v
                | _ => StorageM.migrateState now v) := by
            simp only [StorageM.loadState, henv, Bool.not_true, Bool.false_eq_true,
              if_false, hst, hv]
          cases hver : StorageM.getField v "version" with
          | none =>
            rw [hver] at hbase
            have hb2 : StorageM.loadState env now = StorageM.migrateState now v := hbase
            rw [hb2]
            exact ⟨StorageM.isValid_migrateState now v hv,
              Or.inr ⟨v, rfl, hv, Or.inr rfl⟩⟩
          | some w =>
            rw [hver] at hbase
            cases w with
            | num q =>
              have hb2 : StorageM.loadState env now =
                  (if q = 1 then v else StorageM.migrateState now v) := hbase
              by_cases hq : q = 1
              · rw [if_pos hq] at hb2
                rw [hb2]
                exact ⟨hv, Or.inr ⟨v, rfl, hv, Or.inl rfl⟩⟩
              · rw [if_neg hq] at hb2
                rw [hb2]
                exact ⟨StorageM.isValid_migrateState now v hv,
                  Or.inr ⟨v, rfl, hv, Or.inr rfl⟩⟩
            | null =>
              have hb2 : StorageM.loadState env now = StorageM.migrateState now v := hbase
              rw [hb2]
              exact ⟨StorageM.isValid_migrateState now v hv,
                Or.inr ⟨v, rfl, hv, Or.inr rfl⟩⟩
            | bool b =>
              have hb2 : StorageM.loadState env now = StorageM.migrateState now v := hbase
              rw [hb2]
              exact ⟨StorageM.isValid_migrateState now v hv,
                Or.inr ⟨v, rfl, hv, Or.inr rfl⟩⟩
            | str t =>
              have hb2 : StorageM.loadState env now = StorageM.migrateState now v := hbase
              rw [hb2]
              exact ⟨StorageM.isValid_migrateState now v hv,
                Or.inr ⟨v, rfl, hv, Or.inr rfl⟩⟩
            | arr xs =>
              have hb2 : StorageM.loadState env now = StorageM.migrateState now v := hbase
              rw [hb2]
              exact ⟨StorageM.isValid_migrateState now v hv,
                Or.inr ⟨v, rfl, hv, Or.inr rfl⟩⟩
            | obj fs =>
              have hb2 : StorageM.loadState env now = StorageM.migrateState now v := hbase
              rw [hb2]
              exact ⟨StorageM.isValid_migrateState now v hv,
                Or.inr ⟨v, rfl, hv, Or.inr rfl⟩⟩
        · have hvf : StorageM.isValidStateStructure v = false :=
            Bool.eq_false_iff.mpr hv
          have heval : StorageM.loadState env now = StorageM.getDefaultState now := by
            simp only [StorageM.loadState, henv, Bool.not_true, Bool.false_eq_true,
              if_false, hst, hvf, Bool.not_false, if_true]
          rw [heval]
          exact ⟨StorageM.isValid_default now, Or.inl rfl⟩

/-! ### C8: listener/flag activation versus the initial focus move in
`AccessibleModal.open` -/

/-- Claim C8 is refuted on the `part_002` module implementation of
`AccessibleModal.open`: in its statement trace the initial focus move
occurs strictly before the keydown listener is attached and before the
active flag is set — the opposite of the claimed ordering — so a
keystroke arriving right after the focus move would be processed with
the trap inactive and the listener detached. -/
theorem open_module_moves_focus_before_arming :
    Modal.stepIndex .moveInitialFocus Modal.openStepsModule <
      Modal.stepIndex .attachKeyListener Modal.openStepsModule ∧
    Modal.stepIndex .moveInitialFocus Modal.openStepsModule <
      Modal.stepIndex .setActiveFlag Modal.openStepsModule := by
  decide

/-- Claim C8, amended: the ordering holds for the `app.js`
implementation of `AccessibleModal.open` — the active flag is set and
the global keydown listener attached strictly before initial focus is
moved into the modal — while the `part_002` module version moves focus
first (refutation above). -/
theorem open_app_arms_trap_before_focus :
    Modal.stepIndex .setActiveFlag Modal.openStepsApp <
      Modal.stepIndex .moveInitialFocus Modal.openStepsApp ∧
    Modal.stepIndex .attachKeyListener Modal.openStepsApp <
      Modal.stepIndex .moveInitialFocus Modal.openStepsApp := by
  decide

/-! ### C9: Tab handling — fresh recomputation, empty-set cancel, and
wrap-around -/

/-- Claim C9 is refuted on the `part_002` module implementation: with
the cached list `[1, 2]` captured at open time but the document now
containing `[1, 2, 3]`, Tab with focus on element 2 should (per the
claim, which requires a fresh recomputation) be left to the native
default — but the module wraps to element 1 using its stale cache; and
with an empty focusable set the claim requires the default action to be
cancelled — but the module's handler falls through without cancelling. -/
theorem trapFocus_module_counterexample :
    Modal.handleTabModule [1, 2] 2 false =
      { prevented := true, focusTarget := some 1 } ∧
    Modal.claimTab [1, 2, 3] 2 false =
      { prevented := false, focusTarget := none } ∧
    Modal.handleTabModule [] 7 false =
      { prevented := false, focusTarget := none } := by
  decide

/-- Claim C9, amended: the `app.js` `trapFocus` satisfies the claimed
behaviour — on every Tab press it overwrites the cached list with a
fresh query (so its outcome and its new cache depend only on the current
document, not on the stale cache), cancels the default action and leaves
focus alone when the fresh set is empty, wraps Tab from the last element
to the first and Shift+Tab from the first to the last, and leaves every
other position to the native default — while the `part_002` module
version consults its stale cache (refutation above). -/
theorem trapFocus_app_matches_claim
    (cachedFocusables domFocusables : List Modal.Elem)
    (activeEl : Modal.Elem) (shift : Bool) :
    (Modal.trapFocusApp cachedFocusables domFocusables activeEl shift).2 =
      Modal.claimTab domFocusables activeEl shift ∧
    (Modal.trapFocusApp cachedFocusables domFocusables activeEl shift).1 =
      domFocusables := by
  cases domFocusables with
  | nil => exact ⟨rfl, rfl⟩
  | cons x xs =>
    constructor
    · simp only [Modal.trapFocusApp, Modal.claimTab]
      split <;> split <;> rfl
    · simp only [Modal.trapFocusApp]
      split <;> split <;> rfl

/-- Witness for C10: starting from observers `[3]`, subscribing callback
7 twice makes it run twice per event, and one unsubscribe removes both
occurrences. -/
theorem subscribe_twice_unsubscribe_all_witness :
    ((Observers.notifyRun
        (Observers.subscribe (Observers.subscribe [3] 7) 7)
        (fun _ => false)).1.count 7 = [3].count 7 + 2) ∧
    ((Observers.notifyRun
        (Observers.unsubscribe
          (Observers.subscribe (Observers.subscribe [3] 7) 7) 7)
        (fun _ => false)).1.count 7 = 0) :=
  subscribe_twice_unsubscribe_all [3] 7 (fun _ => false) (fun _ => rfl)
